import Mathlib

/-!
# Failure-prediction pipeline: shallow embedding

Shallow embedding of the prediction decision pipeline of the repository:

* `src/src/services/failure_prediction.py` (`FailurePredictionService`):
  feature encoding, min-max normalization, binary decision policy,
  multiclass decision policy (argmax, probability map, confidence,
  ambiguity, top-k, rule-based override);
* `src/src/controllers/failure_prediction_controller.py`: the
  `/predict/binary` and `/predict/type` routes, the latter implementing
  the no-failure shortcut;
* `src/notebooks/create_scaler.py`: fitting of the `MinMaxScaler`
  normalization artifact.

Modelling conventions:

* Python floats are modelled as exact rationals (`ℚ`); `round(x, 4)` is
  modelled as rounding to the nearest multiple of `1/10000`.
* The two Keras classifiers are opaque functions `(Fin 6 → ℚ) → ℚ`
  (binary) and `(Fin 6 → ℚ) → (Fin 6 → ℚ)` (multiclass); a handle that
  failed to load at startup is `none`.
* Python exceptions are modelled with `Except String`, the string being
  the exception message; a `try`/`except` that re-raises with a prefix is
  modelled by prefixing the message.
* Python's `str.upper` is modelled by upper-casing each character
  (`Char.toUpper`, ASCII case mapping, which is what matters for the
  one-letter machine-type codes).
* Python's `sorted` is a stable sort; it is modelled by Mathlib's
  `List.insertionSort`, which is also stable, applied to the
  index-tagged entry list with the non-strict key comparison
  `probGE a b ↔ b.prob ≤ a.prob` (= `key=prob, reverse=True`).
-/

namespace FailurePred

/-- Python `str.upper` (ASCII case mapping), applied before the
machine-type lookup in `_prepare_input_features`. -/
def py_upper (s : String) : String := ⟨s.data.map Char.toUpper⟩

/-- Structure `MachineInput` (pydantic model in `src/src/models/model.py`):
product id, machine type string and the five numeric sensor readings. -/
structure MachineInput where
  product_id : String
  type : String
  air_temperature : ℚ
  process_temperature : ℚ
  rotational_speed : ℚ
  torque : ℚ
  tool_wear : ℚ
deriving DecidableEq

/-- The fixed ordered failure-type labels
(`self.failure_type_labels` in the service, LabelEncoder alphabetical
order). -/
def failure_type_labels : List String :=
  ["Heat Dissipation Failure", "No Failure", "Overstrain Failure",
   "Power Failure", "Random Failures", "Tool Wear Failure"]

/-- Label at a class index: `self.failure_type_labels[i]`. -/
def labelVec (i : Fin 6) : String := failure_type_labels.getD i.val ("")

/-- Constant `self.multiclass_confidence_threshold = 0.3`. -/
def multiclass_confidence_threshold : ℚ := 0.3

/-- Dict `self.rule_override_thresholds = {'tool_wear': 200}`. -/
def rule_override_thresholds : List (String × ℚ) := [("tool_wear", 200)]

/-- Dict `type_mapping = {'H': 0, 'L': 1, 'M': 2}` in
`_prepare_input_features`. -/
def type_mapping : List (String × ℕ) := [("H", 0), ("L", 1), ("M", 2)]

/-- Lookup `type_mapping.get(machine_input.type.upper(), 2)`: encode the
machine type, defaulting to 2 when the upper-cased string is unknown. -/
def type_code (t : String) : ℕ := ((type_mapping.lookup (py_upper t)).getD 2)

/-- The raw (unnormalized) feature row built in
`_prepare_input_features`, in the fixed training column order
`[type, air_temperature, process_temperature, rotational_speed, torque,
tool_wear]`. -/
def rawFeatures (m : MachineInput) : Fin 6 → ℚ :=
  ![(type_code m.type : ℚ), m.air_temperature, m.process_temperature,
    m.rotational_speed, m.torque, m.tool_wear]

/-- The normalization artifact: an sklearn `MinMaxScaler` with
`feature_range=(0, 1)`, holding per-column `data_min_` / `data_max_`.
Per `create_scaler.py` it is fitted over every feature column of the
training matrix (see `fit_minmax`). -/
structure MinMaxScaler where
  data_min : Fin 6 → ℚ
  data_max : Fin 6 → ℚ

/-- Transform `scaler.transform`: per column, `(x - data_min) / (data_max -
data_min)` (with sklearn's zero-range guard, under which the scale
factor is 1). -/
def MinMaxScaler.transform (s : MinMaxScaler) (x : Fin 6 → ℚ) : Fin 6 → ℚ :=
  fun i =>
    if s.data_max i = s.data_min i then x i - s.data_min i
    else (x i - s.data_min i) / (s.data_max i - s.data_min i)

/-- Fitting `mm.fit(X_train[num_cols])` in `create_scaler.py`: record each
column's min and max over the (nonempty) training rows. After the
script label-encodes `type`, `select_dtypes(include=['int64',
'float64'])` selects all six feature columns — the encoded type column
included — so the artifact covers all six columns. -/
def fit_minmax (first : Fin 6 → ℚ) (rest : List (Fin 6 → ℚ)) : MinMaxScaler where
  data_min := fun i => rest.foldl (fun acc row => min acc (row i)) (first i)
  data_max := fun i => rest.foldl (fun acc row => max acc (row i)) (first i)

/-- Message of the exception raised when `self.scaler is None`. -/
def scaler_missing_msg : String := "Scaler not loaded. Cannot normalize input features."

/-- Message of the exception raised when `self.binary_model is None`. -/
def binary_model_missing_msg : String := "Binary model is not loaded"

/-- Message of the exception raised when `self.failure_type_model is None`. -/
def multiclass_model_missing_msg : String := "Failure type model is not loaded"

/-- Method `_prepare_input_features`: build the raw feature row and apply the
scaler; raise if the scaler is not loaded. -/
def prepare_input_features (scaler : Option MinMaxScaler) (m : MachineInput) :
    Except String (Fin 6 → ℚ) :=
  match scaler with
  | none => .error scaler_missing_msg
  | some s => .ok (s.transform (rawFeatures m))

/-- Response `BinaryPredictionResponse` of `src/src/models/model.py`. The echoed
`input_data` dict carries exactly the seven submitted observation
fields, hence is modelled as a `MachineInput`. -/
structure BinaryPredictionResponse where
  prediction : ℕ
  prediction_label : String
  probability : ℚ
  confidence : ℚ
  input_data : MachineInput
deriving DecidableEq

/-- A `{"label": …, "prob": …}` entry of the `top_k` list. -/
structure TopKEntry where
  label : String
  prob : ℚ
deriving DecidableEq

/-- A `suggested_override` dict `{'label': …, 'reason': …}`. -/
structure OverrideSuggestion where
  label : String
  reason : String
deriving DecidableEq

/-- Response `MulticlassPredictionResponse` of `src/src/models/model.py`; the
probability dict is modelled as an association list in insertion
(= fixed label) order. -/
structure MulticlassPredictionResponse where
  prediction : String
  probabilities : List (String × ℚ)
  confidence : ℚ
  input_data : MachineInput
  ambiguous : Bool
  top_k : Option (List TopKEntry)
  suggested_override : Option OverrideSuggestion
deriving DecidableEq

/-- Python `round(x, 4)`: round to 4 decimal digits. -/
def round4 (q : ℚ) : ℚ := ((round (q * 10000) : ℤ) : ℚ) / 10000

/-- Method `predict_binary_failure` of the service: check the model handle,
prepare features (errors raised inside the `try` are re-raised with the
"Binary prediction failed: " prefix), threshold the model probability
at 0.05, and assemble the response. -/
def predict_binary_failure (binary_model : Option ((Fin 6 → ℚ) → ℚ))
    (scaler : Option MinMaxScaler) (m : MachineInput) :
    Except String BinaryPredictionResponse :=
  match binary_model with
  | none => .error binary_model_missing_msg
  | some bm =>
    match prepare_input_features scaler m with
    | .error e => .error ("Binary prediction failed: " ++ e)
    | .ok features =>
      let failure_probability := bm features
      let prediction_binary : ℕ := if failure_probability ≥ 0.05 then 1 else 0
      let prediction_label := if prediction_binary = 1 then ("failed") else ("not failed")
      let confidence := if prediction_binary = 1 then failure_probability
                        else 1 - failure_probability
      .ok { prediction := prediction_binary
            prediction_label := prediction_label
            probability := round4 failure_probability
            confidence := round4 confidence
            input_data := m }

/-- An index-tagged probability entry `(class index, probability)`; the
index records the position in the fixed label order, which is also the
list position that Python's stable sort preserves among equal keys. -/
abbrev Entry := Fin 6 × ℚ

/-- The zipped entry list `zip(self.failure_type_labels,
prediction_probs[0])`, index-tagged. -/
def enumEntries (ps : Fin 6 → ℚ) : List Entry :=
  (List.finRange 6).map (fun i => (i, ps i))

/-- The sort key comparison of `sorted(…, key=lambda x: x['prob'],
reverse=True)`: `a` may come before `b` iff `b`'s probability is not
larger. -/
def probGE (a b : Entry) : Prop := b.2 ≤ a.2

instance : DecidableRel probGE := fun a b => inferInstanceAs (Decidable (b.2 ≤ a.2))

instance : IsTotal Entry probGE := ⟨fun a b => le_total b.2 a.2⟩

instance : IsTrans Entry probGE := ⟨fun _ _ _ hab hbc => le_trans hbc hab⟩

/-- Python's `sorted(entries, key=prob, reverse=True)`: a stable sort
(modelled by the stable `List.insertionSort`) descending on the
probability key. -/
def sortedEntries (ps : Fin 6 → ℚ) : List Entry :=
  List.insertionSort probGE (enumEntries ps)

/-- Turn an index-tagged entry into the `{"label": …, "prob": float(prob)}`
dict of the `top_k` list (probability not rounded). -/
def entryOf (e : Entry) : TopKEntry := ⟨labelVec e.1, e.2⟩

/-- Value `float(np.max(prediction_probs[0]))`: the maximum probability. -/
def maxProb (ps : Fin 6 → ℚ) : ℚ := Finset.univ.sup' Finset.univ_nonempty ps

/-- Index `np.argmax(prediction_probs[0])`: the first class index attaining
the maximum probability. -/
def argmax6 (ps : Fin 6 → ℚ) : Fin 6 :=
  ((List.finRange 6).filter (fun i => decide (ps i = maxProb ps))).headD 0

/-- The justification f-string
`f'tool_wear >= {tw_threshold} (raw value: {machine_input.tool_wear})'`. -/
def override_reason (threshold : ℚ) (tool_wear : ℚ) : String :=
  "tool_wear >= " ++ toString threshold ++ " (raw value: " ++ toString tool_wear ++ ")"

/-- The body of `predict_failure_type` after the model produced the
probability vector `ps`: argmax prediction, rounded probability map,
confidence, top-3 of the stable descending sort, ambiguity flag and the
rule-based tool-wear override. -/
def multiclass_response (m : MachineInput) (ps : Fin 6 → ℚ) :
    MulticlassPredictionResponse :=
  let predicted_failure_type := labelVec (argmax6 ps)
  let confidence := maxProb ps
  let top_k := ((sortedEntries ps).map entryOf).take 3
  let suggested_override :=
    match rule_override_thresholds.lookup ("tool_wear") with
    | none => none
    | some tw_threshold =>
      if m.tool_wear ≥ tw_threshold ∧ predicted_failure_type ≠ "Tool Wear Failure" then
        some ⟨"Tool Wear Failure", override_reason tw_threshold m.tool_wear⟩
      else none
  { prediction := predicted_failure_type
    probabilities := (List.finRange 6).map (fun i => (labelVec i, round4 (ps i)))
    confidence := round4 confidence
    input_data := m
    ambiguous := decide (confidence < multiclass_confidence_threshold)
    top_k := some top_k
    suggested_override := suggested_override }

/-- Method `predict_failure_type` of the service: check the model handle,
prepare features (errors raised inside the `try` are re-raised with the
"Multiclass prediction failed: " prefix), run the multiclass model and
assemble the response. -/
def predict_failure_type (failure_type_model : Option ((Fin 6 → ℚ) → (Fin 6 → ℚ)))
    (scaler : Option MinMaxScaler) (m : MachineInput) :
    Except String MulticlassPredictionResponse :=
  match failure_type_model with
  | none => .error multiclass_model_missing_msg
  | some fm =>
    match prepare_input_features scaler m with
    | .error e => .error ("Multiclass prediction failed: " ++ e)
    | .ok features => .ok (multiclass_response m (fm features))

/-- Outcome of a controller route: a successful `GenericResponseModel`
(message and data) or an `HTTPException` with a detail string. -/
inductive RouteOutcome (α : Type) where
  | ok (message : String) (data : α)
  | httpError (detail : String)
deriving DecidableEq

/-- The synthetic no-failure response built in the `/predict/type` route
when the binary stage predicts 0: probability 1.0 on "No Failure" and
0.0 elsewhere, confidence 1.0, not ambiguous, no top-k, no override. -/
def no_failure_response (m : MachineInput) : MulticlassPredictionResponse :=
  { prediction := "No Failure"
    probabilities := failure_type_labels.map
      (fun l => (l, if l = "No Failure" then (1 : ℚ) else 0))
    confidence := 1
    input_data := m
    ambiguous := false
    top_k := none
    suggested_override := none }

/-- Success message of the shortcut branch of `/predict/type`. -/
def shortcut_message : String :=
  "Binary predicted not failed; multiclass prediction not performed"

/-- The `/predict/binary` route of
`failure_prediction_controller.py`: any service exception becomes an
`HTTPException` whose detail is the exception message. -/
def predict_binary_route (binary_model : Option ((Fin 6 → ℚ) → ℚ))
    (scaler : Option MinMaxScaler) (m : MachineInput) :
    RouteOutcome BinaryPredictionResponse :=
  match predict_binary_failure binary_model scaler m with
  | .error e => .httpError e
  | .ok r => .ok ("Binary prediction successful") r

/-- The `/predict/type` route: run the binary prediction first; on
binary label 0 return the synthetic no-failure response without ever
touching the multiclass model, otherwise run `predict_failure_type`;
exceptions become `HTTPException`s with the exception message. -/
def predict_failure_type_route (binary_model : Option ((Fin 6 → ℚ) → ℚ))
    (failure_type_model : Option ((Fin 6 → ℚ) → (Fin 6 → ℚ)))
    (scaler : Option MinMaxScaler) (m : MachineInput) :
    RouteOutcome MulticlassPredictionResponse :=
  match predict_binary_failure binary_model scaler m with
  | .error e => .httpError e
  | .ok binary_result =>
    if binary_result.prediction = 0 then
      .ok shortcut_message (no_failure_response m)
    else
      match predict_failure_type failure_type_model scaler m with
      | .error e => .httpError e
      | .ok r => .ok ("Failure type prediction successful") r

/-- The non-strict order realized by the stable descending sort on
index-tagged entries: probability descending, ties by class index. -/
def lexBefore (a b : Entry) : Prop := b.2 < a.2 ∨ (a.2 = b.2 ∧ a.1 ≤ b.1)

/-- Strict version of `lexBefore`: probability strictly descending, or
equal probabilities with the strictly earlier class index first. -/
def strictBefore (a b : Entry) : Prop := b.2 < a.2 ∨ (a.2 = b.2 ∧ a.1 < b.1)

instance : IsTrans Entry lexBefore where
  trans a b c hab hbc := by
    rcases hab with h | ⟨he, hi⟩
    · rcases hbc with h' | ⟨he', _⟩
      · exact Or.inl (h'.trans h)
      · exact Or.inl (he' ▸ h)
    · rcases hbc with h' | ⟨he', hi'⟩
      · exact Or.inl (he ▸ h')
      · exact Or.inr ⟨he.trans he', hi.trans hi'⟩

/-! ### Concrete fixtures

Representative concrete values used for counterexamples and witnesses.
`cex_rowH`, `cex_rowL`, `cex_rowM` are three label-encoded training
rows (one per machine type, with `H`, `L`, `M` encoded as 0, 1, 2 by
the `LabelEncoder` of `create_scaler.py`); `cex_scaler` is the
`MinMaxScaler` fitted over them as `mm.fit` does. -/

/-- An encoded training row of machine type `H` (type code 0). -/
def cex_rowH : Fin 6 → ℚ := ![0, 298, 308, 1551, 42, 0]

/-- An encoded training row of machine type `L` (type code 1). -/
def cex_rowL : Fin 6 → ℚ := ![1, 295, 305, 1168, 3, 10]

/-- An encoded training row of machine type `M` (type code 2). -/
def cex_rowM : Fin 6 → ℚ := ![2, 304, 313, 2886, 76, 253]

/-- The scaler fitted on the three training rows; its type column has
`data_min = 0`, `data_max = 2`. -/
def cex_scaler : MinMaxScaler := fit_minmax cex_rowH [cex_rowL, cex_rowM]

/-- A concrete observation of machine type `L`, tool wear 208. -/
def cex_obs : MachineInput :=
  { product_id := "L47257", type := "L", air_temperature := 298
    process_temperature := 308, rotational_speed := 1455
    torque := 41, tool_wear := 208 }

/-- Observation `cex_obs` with an air temperature below the training minimum 295. -/
def cex_obs_low : MachineInput := { cex_obs with air_temperature := 290 }

/-- A binary classifier handle returning probability `1/100000`. -/
def cex_bm_small : (Fin 6 → ℚ) → ℚ := fun _ => 1/100000

/-- A binary classifier handle returning probability `0`. -/
def cex_bm_zero : (Fin 6 → ℚ) → ℚ := fun _ => 0

/-- A probability vector whose maximum (confidence) is `0.29`. -/
def pvec29 : Fin 6 → ℚ := ![0.29, 0.2, 0.2, 0.1, 0.11, 0.1]

/-- A probability vector whose maximum (confidence) is `0.30`. -/
def pvec30 : Fin 6 → ℚ := ![0.3, 0.2, 0.2, 0.1, 0.1, 0.1]

/-- The spec's top-k example vector `[0.1, 0.05, 0.6, 0.1, 0.1, 0.05]`. -/
def pvec_tie : Fin 6 → ℚ := ![0.1, 0.05, 0.6, 0.1, 0.1, 0.05]

/-- A multiclass classifier handle constantly returning `pvec_tie`. -/
def cex_fm : (Fin 6 → ℚ) → (Fin 6 → ℚ) := fun _ => pvec_tie

/-! ### Helper lemmas -/

theorem maxProb_eq (ps : Fin 6 → ℚ) :
    maxProb ps = max (ps 0) (max (ps 1) (max (ps 2) (max (ps 3) (max (ps 4) (ps 5))))) := by
  apply le_antisymm
  · apply Finset.sup'_le
    intro i _
    fin_cases i <;> simp [le_max_iff, le_refl]
  · simp only [max_le_iff]
    refine ⟨?_, ?_, ?_, ?_, ?_, ?_⟩ <;> exact Finset.le_sup' ps (Finset.mem_univ _)

theorem le_maxProb (ps : Fin 6 → ℚ) (i : Fin 6) : ps i ≤ maxProb ps :=
  Finset.le_sup' ps (Finset.mem_univ i)

theorem exists_maxProb (ps : Fin 6 → ℚ) : ∃ i, ps i = maxProb ps := by
  obtain ⟨i, _, hi⟩ := Finset.exists_mem_eq_sup' (Finset.univ_nonempty) ps
  exact ⟨i, hi.symm⟩

theorem argmax6_spec (ps : Fin 6 → ℚ) :
    ps (argmax6 ps) = maxProb ps ∧ ∀ j, ps j = maxProb ps → argmax6 ps ≤ j := by
  have hmem : ∀ j : Fin 6, ps j = maxProb ps →
      j ∈ (List.finRange 6).filter (fun i => decide (ps i = maxProb ps)) := by
    intro j hj
    exact List.mem_filter.mpr ⟨List.mem_finRange j, decide_eq_true hj⟩
  obtain ⟨i, hi⟩ := exists_maxProb ps
  have hpw : ((List.finRange 6).filter (fun i => decide (ps i = maxProb ps))).Pairwise (· < ·) :=
    (List.pairwise_lt_finRange 6).sublist (List.filter_sublist _)
  rcases hF : (List.finRange 6).filter (fun i => decide (ps i = maxProb ps)) with _ | ⟨a, t⟩
  · exact absurd (hF ▸ hmem i hi) (List.not_mem_nil i)
  · have ha : ps a = maxProb ps := by
      have : a ∈ (List.finRange 6).filter (fun i => decide (ps i = maxProb ps)) := by
        rw [hF]; exact List.mem_cons_self a t
      exact of_decide_eq_true (List.mem_filter.mp this).2
    have hhead : argmax6 ps = a := by rw [argmax6, hF]; rfl
    refine ⟨hhead ▸ ha, ?_⟩
    intro j hj
    have hjF := hmem j hj
    rw [hF] at hjF hpw
    rcases List.mem_cons.mp hjF with rfl | hjt
    · exact hhead.le
    · exact hhead ▸ (List.pairwise_cons.mp hpw).1 j hjt |>.le

theorem mem_enumEntries (ps : Fin 6 → ℚ) (j : Fin 6) : (j, ps j) ∈ enumEntries ps :=
  List.mem_map.mpr ⟨j, List.mem_finRange j, rfl⟩

theorem snd_of_mem_enumEntries {ps : Fin 6 → ℚ} {e : Entry} (h : e ∈ enumEntries ps) :
    e.2 = ps e.1 := by
  obtain ⟨i, _, hi⟩ := List.mem_map.mp h
  rw [← hi]

theorem enum_pairwise_idx (ps : Fin 6 → ℚ) :
    (enumEntries ps).Pairwise (fun a b : Entry => a.1 < b.1) := by
  rw [enumEntries, List.pairwise_map]
  exact List.pairwise_lt_finRange 6

theorem sortedEntries_perm (ps : Fin 6 → ℚ) :
    List.Perm (sortedEntries ps) (enumEntries ps) :=
  List.perm_insertionSort probGE (enumEntries ps)

theorem mem_sortedEntries {ps : Fin 6 → ℚ} {e : Entry} :
    e ∈ sortedEntries ps ↔ e ∈ enumEntries ps := (sortedEntries_perm ps).mem_iff

theorem sortedEntries_length (ps : Fin 6 → ℚ) : (sortedEntries ps).length = 6 := by
  rw [(sortedEntries_perm ps).length_eq, enumEntries, List.length_map, List.length_finRange]

theorem sorted_lex_orderedInsert (x : Entry) :
    ∀ s : List Entry, List.Sorted lexBefore s → (∀ y ∈ s, x.2 = y.2 → x.1 ≤ y.1) →
      List.Sorted lexBefore (List.orderedInsert probGE x s)
  | [], _, _ => by simp [List.Sorted]
  | b :: t, hs, hx => by
    rw [List.orderedInsert]
    by_cases h : probGE x b
    · rw [if_pos h]
      have hxb : lexBefore x b := by
        rcases lt_or_eq_of_le (show b.2 ≤ x.2 from h) with hlt | heq
        · exact Or.inl hlt
        · exact Or.inr ⟨heq.symm, hx b (List.mem_cons_self b t) heq.symm⟩
      refine List.sorted_cons.mpr ⟨?_, hs⟩
      intro y hy
      rcases List.mem_cons.mp hy with rfl | hyt
      · exact hxb
      · exact IsTrans.trans x b y hxb (List.rel_of_sorted_cons hs y hyt)
    · rw [if_neg h]
      have hbx : x.2 < b.2 := lt_of_not_le (show ¬b.2 ≤ x.2 from h)
      have hst : List.Sorted lexBefore t := (List.sorted_cons.mp hs).2
      have ih := sorted_lex_orderedInsert x t hst (fun y hy => hx y (List.mem_cons_of_mem _ hy))
      refine List.sorted_cons.mpr ⟨?_, ih⟩
      intro y hy
      rcases (List.mem_orderedInsert probGE).mp hy with rfl | hyt
      · exact Or.inl hbx
      · exact (List.sorted_cons.mp hs).1 y hyt

theorem sorted_lex_insertionSort :
    ∀ l : List Entry, l.Pairwise (fun a b : Entry => a.1 < b.1) →
      List.Sorted lexBefore (List.insertionSort probGE l)
  | [], _ => by simp [List.Sorted]
  | x :: rest, hl => by
    rw [List.insertionSort]
    have hp := List.pairwise_cons.mp hl
    exact sorted_lex_orderedInsert x _ (sorted_lex_insertionSort rest hp.2)
      (fun y hy _ => le_of_lt (hp.1 y ((List.mem_insertionSort probGE).mp hy)))

theorem sortedEntries_sorted_lex (ps : Fin 6 → ℚ) :
    List.Sorted lexBefore (sortedEntries ps) :=
  sorted_lex_insertionSort (enumEntries ps) (enum_pairwise_idx ps)

theorem sortedEntries_pairwise_strict (ps : Fin 6 → ℚ) :
    (sortedEntries ps).Pairwise strictBefore := by
  have h1 : (sortedEntries ps).Pairwise lexBefore := sortedEntries_sorted_lex ps
  have hne : (sortedEntries ps).Pairwise (fun a b : Entry => a.1 ≠ b.1) := by
    have hsym : ∀ {x y : Entry}, x.1 ≠ y.1 → y.1 ≠ x.1 := fun h => h.symm
    exact ((sortedEntries_perm ps).pairwise_iff hsym).mpr
      ((enum_pairwise_idx ps).imp (fun h => ne_of_lt h))
  refine (h1.and hne).imp ?_
  rintro a b ⟨hlex | ⟨he, hle⟩, hidx⟩
  · exact Or.inl hlex
  · exact Or.inr ⟨he, lt_of_le_of_ne hle hidx⟩

theorem sortedEntries_head (ps : Fin 6 → ℚ) :
    (sortedEntries ps).head? = some (argmax6 ps, maxProb ps) := by
  rcases hse : sortedEntries ps with _ | ⟨h, t⟩
  · have := sortedEntries_length ps
    rw [hse] at this
    simp at this
  · have hmem : h ∈ enumEntries ps :=
      mem_sortedEntries.mp (hse ▸ List.mem_cons_self h t)
    have hsnd : h.2 = ps h.1 := snd_of_mem_enumEntries hmem
    have hdom : ∀ j : Fin 6, lexBefore h (j, ps j) ∨ h = (j, ps j) := by
      intro j
      have hj : (j, ps j) ∈ sortedEntries ps := mem_sortedEntries.mpr (mem_enumEntries ps j)
      rw [hse] at hj
      rcases List.mem_cons.mp hj with heq | hjt
      · exact Or.inr heq.symm
      · exact Or.inl (List.rel_of_sorted_cons (hse ▸ sortedEntries_sorted_lex ps) _ hjt)
    have hmax : ps h.1 = maxProb ps := by
      refine le_antisymm (le_maxProb ps h.1) ?_
      obtain ⟨i, hi⟩ := exists_maxProb ps
      rcases hdom i with hlex | heq
      · rcases hlex with hlt | ⟨heq2, _⟩
        · exact hi ▸ hsnd ▸ le_of_lt hlt
        · exact hi ▸ le_of_eq ((show ps i = h.2 from heq2.symm).trans hsnd)
      · exact hi ▸ le_of_eq (show ps i = ps h.1 by rw [heq])
    have hminIdx : ∀ j : Fin 6, ps j = maxProb ps → h.1 ≤ j := by
      intro j hj
      rcases hdom j with hlex | heq
      · rcases hlex with hlt | ⟨_, hle⟩
        · exact absurd (hj.trans (hmax.symm.trans hsnd.symm)) (ne_of_lt hlt)
        · exact hle
      · rw [heq]
    obtain ⟨hag, hmin⟩ := argmax6_spec ps
    have hidx : h.1 = argmax6 ps := le_antisymm (hminIdx _ hag) (hmin _ hmax)
    have : h = (argmax6 ps, maxProb ps) := by
      rw [← hidx, ← hmax, ← hsnd]
    rw [this]
    rfl

/-- Unfolding of `predict_binary_failure` when both the model and the
scaler are available: the call always succeeds, with the response built
from the model probability on the normalized features. -/
theorem predict_binary_ok (bmf : (Fin 6 → ℚ) → ℚ) (s : MinMaxScaler) (m : MachineInput) :
    predict_binary_failure (some bmf) (some s) m =
      .ok { prediction := if bmf (s.transform (rawFeatures m)) ≥ 0.05 then 1 else 0
            prediction_label :=
              if (if bmf (s.transform (rawFeatures m)) ≥ 0.05 then 1 else 0) = 1
              then ("failed") else ("not failed")
            probability := round4 (bmf (s.transform (rawFeatures m)))
            confidence := round4
              (if (if bmf (s.transform (rawFeatures m)) ≥ 0.05 then 1 else 0) = (1 : ℕ)
               then bmf (s.transform (rawFeatures m))
               else 1 - bmf (s.transform (rawFeatures m)))
            input_data := m } := rfl

/-! ### Claims -/

/-- C6: for every multiclass probability vector, the returned
`ambiguous` flag is true iff the confidence (the maximum probability)
is strictly below 0.3; confidence 0.29 gives `true` and confidence 0.30
gives `false`. -/
theorem C6_ambiguity (m : MachineInput) (ps : Fin 6 → ℚ) :
    ((multiclass_response m ps).ambiguous = true ↔ maxProb ps < 0.3) ∧
    ((multiclass_response m ps).ambiguous = false ↔ 0.3 ≤ maxProb ps) ∧
    maxProb pvec29 = 0.29 ∧ (multiclass_response cex_obs pvec29).ambiguous = true ∧
    maxProb pvec30 = 0.3 ∧ (multiclass_response cex_obs pvec30).ambiguous = false := by
  have h29 : maxProb pvec29 = 0.29 := by
    have h5 : pvec29 5 = 0.1 := rfl
    rw [maxProb_eq, h5]; norm_num [pvec29]
  have h30 : maxProb pvec30 = 0.3 := by
    have h5 : pvec30 5 = 0.1 := rfl
    rw [maxProb_eq, h5]; norm_num [pvec30]
  refine ⟨?_, ?_, h29, ?_, h30, ?_⟩
  · simp [multiclass_response, multiclass_confidence_threshold]
  · simp [multiclass_response, multiclass_confidence_threshold, not_lt]
  · simp only [multiclass_response, decide_eq_true_eq, h29, multiclass_confidence_threshold]
    norm_num
  · simp only [multiclass_response, decide_eq_false_iff_not, h30, multiclass_confidence_threshold]
    norm_num

/-- C7: the machine-type encoder upper-cases the type string and maps
"H" to 0, "L" to 1, "M" to 2 and every other string to the fallback
code 2, totally (no error is raised and the fallback is not surfaced:
the encoder returns a plain code). -/
theorem C7_type_encoding (s : String) :
    type_code s = (if py_upper s = "H" then 0
                   else if py_upper s = "L" then 1 else 2) ∧
    type_code ("H") = 0 ∧ type_code ("L") = 1 ∧ type_code ("M") = 2 ∧
    type_code ("h") = 0 ∧ type_code ("l") = 1 ∧ type_code ("m") = 2 ∧
    type_code ("X") = 2 ∧ type_code ("unknown") = 2 ∧ type_code s ≤ 2 := by
  have hmain : ∀ t : String,
      type_code t = (if py_upper t = "H" then 0
                     else if py_upper t = "L" then 1 else 2) := by
    intro t
    by_cases h1 : py_upper t = "H"
    · simp [type_code, type_mapping, List.lookup, h1]
    · have b1 : (py_upper t == "H") = false := beq_eq_false_iff_ne.mpr h1
      by_cases h2 : py_upper t = "L"
      · simp [type_code, type_mapping, List.lookup, b1, h1, h2]
      · have b2 : (py_upper t == "L") = false := beq_eq_false_iff_ne.mpr h2
        by_cases h3 : py_upper t = "M"
        · simp [type_code, type_mapping, List.lookup, b1, b2, h1, h2, h3]
        · have b3 : (py_upper t == "M") = false := beq_eq_false_iff_ne.mpr h3
          simp [type_code, type_mapping, List.lookup, b1, b2, b3, h1, h2, h3]
  refine ⟨hmain s, by decide, by decide, by decide, by decide, by decide, by decide,
    by decide, by decide, ?_⟩
  rw [hmain s]
  split_ifs <;> omega

/-- C4: the multiclass policy emits an override suggestion naming
"Tool Wear Failure" (with the justification embedding threshold 200 and
the raw tool-wear value) iff the raw tool wear is at least 200 and the
predicted label is not already "Tool Wear Failure"; otherwise the
suggestion is absent. -/
theorem C4_override_rule (m : MachineInput) (ps : Fin 6 → ℚ) :
    ((multiclass_response m ps).suggested_override =
      if m.tool_wear ≥ 200 ∧ (multiclass_response m ps).prediction ≠ "Tool Wear Failure"
      then some ⟨"Tool Wear Failure", override_reason 200 m.tool_wear⟩
      else none) ∧
    ((multiclass_response m ps).suggested_override =
        some ⟨"Tool Wear Failure", override_reason 200 m.tool_wear⟩ ↔
      m.tool_wear ≥ 200 ∧ (multiclass_response m ps).prediction ≠ "Tool Wear Failure") := by
  have h1 : (multiclass_response m ps).suggested_override =
      if m.tool_wear ≥ 200 ∧ (multiclass_response m ps).prediction ≠ "Tool Wear Failure"
      then some ⟨"Tool Wear Failure", override_reason 200 m.tool_wear⟩
      else none := rfl
  refine ⟨h1, ?_⟩
  rw [h1]
  by_cases hc : m.tool_wear ≥ 200 ∧ (multiclass_response m ps).prediction ≠ "Tool Wear Failure"
  · simp [hc]
  · simp [hc]

/-- C9: the `input_data` echoed in both the binary and the multiclass
result is the original observation, exactly as submitted. -/
theorem C9_input_echo (bm : Option ((Fin 6 → ℚ) → ℚ))
    (fm : Option ((Fin 6 → ℚ) → Fin 6 → ℚ)) (sc : Option MinMaxScaler)
    (m : MachineInput) :
    (∀ r, predict_binary_failure bm sc m = .ok r → r.input_data = m) ∧
    (∀ r, predict_failure_type fm sc m = .ok r → r.input_data = m) := by
  constructor
  · intro r h
    rcases bm with _ | bmf
    · simp [predict_binary_failure] at h
    · rcases sc with _ | s
      · simp [predict_binary_failure, prepare_input_features] at h
      · rw [predict_binary_ok] at h
        injection h with h'
        rw [← h']
  · intro r h
    rcases fm with _ | fmf
    · simp [predict_failure_type] at h
    · rcases sc with _ | s
      · simp [predict_failure_type, prepare_input_features] at h
      · have h' : multiclass_response m (fmf (s.transform (rawFeatures m))) = r := by
          have : predict_failure_type (some fmf) (some s) m =
              .ok (multiclass_response m (fmf (s.transform (rawFeatures m)))) := rfl
          rw [this] at h
          injection h
        rw [← h']
        rfl

/-- Witness for C9 at a concrete observation and concrete handles. -/
theorem C9_witness :
    predict_binary_failure (some cex_bm_small) (some cex_scaler) cex_obs =
      .ok ⟨0, "not failed", 0, 1, cex_obs⟩ ∧
    (⟨0, "not failed", 0, 1, cex_obs⟩ : BinaryPredictionResponse).input_data = cex_obs := by
  have hok : predict_binary_failure (some cex_bm_small) (some cex_scaler) cex_obs =
      .ok ⟨0, "not failed", 0, 1, cex_obs⟩ := by
    simp only [predict_binary_failure, prepare_input_features, cex_bm_small]
    norm_num [round4, round_eq]
  exact ⟨hok,
    (C9_input_echo (some cex_bm_small) (some cex_fm) (some cex_scaler) cex_obs).1 _ hok⟩

/-- C3 counterexample: with model probability `p = 1/100000` the label
is 0, but the returned confidence is the rounded value 1, not
`1 - p = 99999/100000`: the response rounds confidence to 4 decimals,
so the returned confidence does not equal `1 - p` exactly. -/
theorem C3_counterexample :
    cex_bm_small (cex_scaler.transform (rawFeatures cex_obs)) = 1/100000 ∧
    (predict_binary_failure (some cex_bm_small) (some cex_scaler) cex_obs).toOption.map
      (fun r => (r.prediction, r.confidence)) = some ((0 : ℕ), (1 : ℚ)) ∧
    (1 : ℚ) ≠ 1 - 1/100000 := by
  refine ⟨rfl, ?_, by norm_num⟩
  simp only [predict_binary_failure, prepare_input_features, cex_bm_small,
    Except.toOption, Option.map]
  norm_num [round4, round_eq]

/-- C3 (amended): the label is 1 iff the model probability is at least
0.05 (so 0.05 exactly gives 1), and the returned confidence is the
4-decimal rounding of `p` when the label is 1 and of `1 - p` when the
label is 0. -/
theorem C3_amended (bmf : (Fin 6 → ℚ) → ℚ) (s : MinMaxScaler) (m : MachineInput) :
    ∃ r, predict_binary_failure (some bmf) (some s) m = .ok r ∧
      (r.prediction = 1 ↔ bmf (s.transform (rawFeatures m)) ≥ 0.05) ∧
      (r.prediction = 0 ↔ bmf (s.transform (rawFeatures m)) < 0.05) ∧
      r.confidence = round4 (if bmf (s.transform (rawFeatures m)) ≥ 0.05
        then bmf (s.transform (rawFeatures m))
        else 1 - bmf (s.transform (rawFeatures m))) := by
  refine ⟨_, predict_binary_ok bmf s m, ?_, ?_, ?_⟩
  · by_cases h : bmf (s.transform (rawFeatures m)) ≥ 0.05 <;> simp [h]
  · by_cases h : bmf (s.transform (rawFeatures m)) ≥ 0.05 <;>
      simp [h, not_lt.mpr, lt_of_not_le]
  · by_cases h : bmf (s.transform (rawFeatures m)) ≥ 0.05 <;> simp [h]

/-- C8 counterexample: when the scaler is missing, the error that
reaches the caller is the normalization message wrapped in a
"Binary prediction failed: " prefix by the service's `except` clause,
not the original message unchanged. -/
theorem C8_counterexample :
    predict_binary_failure (some cex_bm_small) none cex_obs =
      .error ("Binary prediction failed: " ++ scaler_missing_msg) ∧
    "Binary prediction failed: " ++ scaler_missing_msg ≠ scaler_missing_msg :=
  ⟨rfl, by decide⟩

/-- C8 (amended): a missing binary model fails `predict_binary_failure`
with the model-unavailable message, a missing multiclass model fails
`predict_failure_type` with its model-unavailable message, and a
missing scaler fails both with the normalization message wrapped in the
respective prediction-failed prefix; the route layer forwards each
failure message unchanged as an HTTP error detail, and no result is
produced on failure. -/
theorem C8_amended (m : MachineInput) (sc : Option MinMaxScaler)
    (bmf : (Fin 6 → ℚ) → ℚ) (fmf : (Fin 6 → ℚ) → Fin 6 → ℚ) :
    predict_binary_failure none sc m = .error binary_model_missing_msg ∧
    predict_failure_type none sc m = .error multiclass_model_missing_msg ∧
    predict_binary_failure (some bmf) none m =
      .error ("Binary prediction failed: " ++ scaler_missing_msg) ∧
    predict_failure_type (some fmf) none m =
      .error ("Multiclass prediction failed: " ++ scaler_missing_msg) ∧
    predict_binary_route none sc m = .httpError binary_model_missing_msg ∧
    predict_binary_route (some bmf) none m =
      .httpError ("Binary prediction failed: " ++ scaler_missing_msg) ∧
    predict_failure_type_route none (some fmf) sc m =
      .httpError binary_model_missing_msg ∧
    predict_failure_type_route (some bmf) (some fmf) none m =
      .httpError ("Binary prediction failed: " ++ scaler_missing_msg) :=
  ⟨rfl, rfl, rfl, rfl, rfl, rfl, rfl, rfl⟩

/-- C2 counterexample: the type-code column does not pass through
normalization unchanged. With the scaler fitted per `create_scaler.py`
on training rows containing all three machine types (type column
min 0, max 2), an observation of type "L" has raw type code 1 but
normalized column 0 equal to `(1 - 0) / (2 - 0) = 1/2 ≠ 1`. -/
theorem C2_counterexample :
    rawFeatures cex_obs 0 = 1 ∧
    cex_scaler.data_min 0 = 0 ∧ cex_scaler.data_max 0 = 2 ∧
    (prepare_input_features (some cex_scaler) cex_obs).toOption.map (fun f => f 0) =
      some (1/2) ∧
    (1/2 : ℚ) ≠ 1 := by
  have ht : type_code ("L") = 1 := by decide
  refine ⟨by norm_num [rawFeatures, cex_obs, ht], ?_, ?_, ?_, by norm_num⟩
  · norm_num [cex_scaler, fit_minmax, cex_rowH, cex_rowL, cex_rowM]
  · norm_num [cex_scaler, fit_minmax, cex_rowH, cex_rowL, cex_rowM]
  · simp only [prepare_input_features, Except.toOption, Option.map]
    norm_num [MinMaxScaler.transform, cex_scaler, fit_minmax, cex_rowH, cex_rowL,
      cex_rowM, rawFeatures, cex_obs, ht]

/-- C2 (amended): normalization applies
`(raw - data_min) / (data_max - data_min)` with the artifact's
per-column min/max to every column whose recorded min and max differ
(the type-code column included, since the artifact is fitted over the
encoded type column too), without clamping: a raw value below the
recorded minimum yields a negative normalized value. -/
theorem C2_amended (s : MinMaxScaler) (m : MachineInput) (i : Fin 6)
    (h : s.data_min i < s.data_max i) :
    prepare_input_features (some s) m = .ok (s.transform (rawFeatures m)) ∧
    s.transform (rawFeatures m) i =
      (rawFeatures m i - s.data_min i) / (s.data_max i - s.data_min i) ∧
    (rawFeatures m i < s.data_min i → s.transform (rawFeatures m) i < 0) := by
  have hne : s.data_max i ≠ s.data_min i := ne_of_gt h
  refine ⟨rfl, ?_, ?_⟩
  · simp only [MinMaxScaler.transform]
    rw [if_neg hne]
  · intro hlow
    simp only [MinMaxScaler.transform]
    rw [if_neg hne]
    apply div_neg_of_neg_of_pos <;> linarith

/-- Witness for C2 (amended) at the concrete scaler and an observation
whose air temperature 290 lies below the recorded minimum 295. -/
theorem C2_witness :
    cex_scaler.data_min 1 < cex_scaler.data_max 1 ∧
    (prepare_input_features (some cex_scaler) cex_obs_low =
        .ok (cex_scaler.transform (rawFeatures cex_obs_low)) ∧
      cex_scaler.transform (rawFeatures cex_obs_low) 1 =
        (rawFeatures cex_obs_low 1 - cex_scaler.data_min 1) /
          (cex_scaler.data_max 1 - cex_scaler.data_min 1) ∧
      (rawFeatures cex_obs_low 1 < cex_scaler.data_min 1 →
        cex_scaler.transform (rawFeatures cex_obs_low) 1 < 0)) :=
  have h : cex_scaler.data_min 1 < cex_scaler.data_max 1 := by
    norm_num [cex_scaler, fit_minmax, cex_rowH, cex_rowL, cex_rowM]
  ⟨h, C2_amended cex_scaler cex_obs_low 1 h⟩

/-- C1: when the binary decision's label is 0, the `/predict/type`
route returns the synthetic no-failure result — prediction
"No Failure", probability 1.0 on "No Failure" and 0.0 on the other five
labels, confidence 1.0, not ambiguous, `top_k` and override absent,
original input echoed — and the multiclass classifier is not invoked:
the outcome is the same for every multiclass handle, `none` included. -/
theorem C1_shortcut (bm : Option ((Fin 6 → ℚ) → ℚ))
    (fm fm' : Option ((Fin 6 → ℚ) → Fin 6 → ℚ)) (sc : Option MinMaxScaler)
    (m : MachineInput) (br : BinaryPredictionResponse)
    (h : predict_binary_failure bm sc m = .ok br) (h0 : br.prediction = 0) :
    predict_failure_type_route bm fm sc m = .ok shortcut_message (no_failure_response m) ∧
    predict_failure_type_route bm fm sc m = predict_failure_type_route bm fm' sc m ∧
    (no_failure_response m).prediction = "No Failure" ∧
    (no_failure_response m).probabilities =
      [("Heat Dissipation Failure", 0), ("No Failure", 1), ("Overstrain Failure", 0),
       ("Power Failure", 0), ("Random Failures", 0), ("Tool Wear Failure", 0)] ∧
    (no_failure_response m).confidence = 1 ∧
    (no_failure_response m).ambiguous = false ∧
    (no_failure_response m).top_k = none ∧
    (no_failure_response m).suggested_override = none ∧
    (no_failure_response m).input_data = m := by
  have hroute : ∀ fmx, predict_failure_type_route bm fmx sc m =
      .ok shortcut_message (no_failure_response m) := by
    intro fmx
    unfold predict_failure_type_route
    rw [h]
    simp [h0]
  have hprobs : (no_failure_response m).probabilities =
      [("Heat Dissipation Failure", 0), ("No Failure", 1), ("Overstrain Failure", 0),
       ("Power Failure", 0), ("Random Failures", 0), ("Tool Wear Failure", 0)] := by
    show failure_type_labels.map (fun l => (l, if l = "No Failure" then (1 : ℚ) else 0)) = _
    norm_num [failure_type_labels]
    decide
  exact ⟨hroute fm, (hroute fm).trans (hroute fm').symm, rfl, hprobs, rfl, rfl, rfl, rfl, rfl⟩

/-- Witness for C1: a binary model returning probability 0 yields
binary label 0 at the concrete observation, and the route returns the
synthetic no-failure result. -/
theorem C1_witness :
    predict_binary_failure (some cex_bm_zero) (some cex_scaler) cex_obs =
      .ok ⟨0, "not failed", 0, 1, cex_obs⟩ ∧
    (⟨0, "not failed", 0, 1, cex_obs⟩ : BinaryPredictionResponse).prediction = 0 ∧
    predict_failure_type_route (some cex_bm_zero) (some cex_fm) (some cex_scaler) cex_obs =
      .ok shortcut_message (no_failure_response cex_obs) := by
  have hok : predict_binary_failure (some cex_bm_zero) (some cex_scaler) cex_obs =
      .ok ⟨0, "not failed", 0, 1, cex_obs⟩ := by
    simp only [predict_binary_failure, prepare_input_features, cex_bm_zero]
    norm_num [round4, round_eq]
  exact ⟨hok, rfl,
    (C1_shortcut (some cex_bm_zero) (some cex_fm) none (some cex_scaler) cex_obs _ hok rfl).1⟩

/-- C5: `top_k` is the first three entries of the stable descending
sort of the six label/probability pairs: it has length 3, is strictly
ordered by descending probability with ties broken by the fixed label
order (earlier class index first), every remaining entry is dominated
by each of the three, and the sorted entries are a permutation of the
original six with their exact probabilities. Concretely, on the vector
`[0.1, 0.05, 0.6, 0.1, 0.1, 0.05]` the top 3 are Overstrain (0.6),
then — by the fixed tie order — Heat Dissipation (0.1) and Power
(0.1). -/
theorem C5_topk_order (m : MachineInput) (ps : Fin 6 → ℚ) :
    (multiclass_response m ps).top_k = some (((sortedEntries ps).take 3).map entryOf) ∧
    ((sortedEntries ps).take 3).length = 3 ∧
    ((sortedEntries ps).take 3).Pairwise strictBefore ∧
    List.Perm ((sortedEntries ps).take 3 ++ (sortedEntries ps).drop 3) (enumEntries ps) ∧
    (∀ a ∈ (sortedEntries ps).take 3, ∀ b ∈ (sortedEntries ps).drop 3, lexBefore a b) ∧
    (∀ e ∈ sortedEntries ps, e.2 = ps e.1) ∧
    (multiclass_response cex_obs pvec_tie).top_k =
      some [⟨"Overstrain Failure", 0.6⟩, ⟨"Heat Dissipation Failure", 0.1⟩,
            ⟨"Power Failure", 0.1⟩] := by
  refine ⟨?_, ?_, ?_, ?_, ?_, ?_, ?_⟩
  · show some (((sortedEntries ps).map entryOf).take 3) = _
    rw [List.map_take]
  · rw [List.length_take, sortedEntries_length]
    decide

  · exact List.Pairwise.sublist (List.take_sublist 3 _) (sortedEntries_pairwise_strict ps)
  · rw [List.take_append_drop]
    exact sortedEntries_perm ps
  · have hpw2 : ((sortedEntries ps).take 3 ++ (sortedEntries ps).drop 3).Pairwise lexBefore := by
      rw [List.take_append_drop]
      exact sortedEntries_sorted_lex ps
    exact (List.pairwise_append.mp hpw2).2.2
  · intro e he
    exact snd_of_mem_enumEntries (mem_sortedEntries.mp he)
  · have hs : sortedEntries pvec_tie =
        [(2, 0.6), (0, 0.1), (3, 0.1), (4, 0.1), (1, 0.05), (5, 0.05)] := by
      norm_num [sortedEntries, enumEntries, List.finRange, List.insertionSort,
        List.orderedInsert, probGE, pvec_tie, List.range, List.range.loop, List.pmap,
        Fin.ext_iff]
      exact ⟨rfl, rfl, rfl⟩
    show some (((sortedEntries pvec_tie).map entryOf).take 3) = _
    rw [hs]
    rfl

/-- C10: the multiclass result is internally consistent — the first
`top_k` entry carries the predicted label and the unrounded confidence
(the maximum probability), the response's `confidence` field is the
4-decimal rounding of that maximum, and the probability map lists
exactly the six fixed labels, each with its probability rounded to 4
decimals, while `top_k` entries carry the exact unrounded
probabilities. -/
theorem C10_response_consistency (m : MachineInput) (ps : Fin 6 → ℚ) :
    (multiclass_response m ps).prediction = labelVec (argmax6 ps) ∧
    (multiclass_response m ps).top_k = some (((sortedEntries ps).map entryOf).take 3) ∧
    (((sortedEntries ps).map entryOf).take 3).head? =
      some ⟨(multiclass_response m ps).prediction, maxProb ps⟩ ∧
    (multiclass_response m ps).confidence = round4 (maxProb ps) ∧
    (multiclass_response m ps).probabilities =
      (List.finRange 6).map (fun i => (labelVec i, round4 (ps i))) ∧
    (multiclass_response m ps).probabilities.map Prod.fst = failure_type_labels ∧
    (∀ e ∈ ((sortedEntries ps).map entryOf).take 3,
      ∃ i : Fin 6, e = ⟨labelVec i, ps i⟩) := by
  refine ⟨rfl, rfl, ?_, rfl, rfl, ?_, ?_⟩
  · have hh := sortedEntries_head ps
    rcases hse : sortedEntries ps with _ | ⟨h, t⟩
    · rw [hse] at hh
      simp at hh
    · rw [hse] at hh
      simp only [List.head?_cons, Option.some.injEq] at hh
      rw [hh]
      rfl
  · show ((List.finRange 6).map (fun i => (labelVec i, round4 (ps i)))).map Prod.fst = _
    rw [List.map_map]
    rfl
  · intro e he
    have hmem : e ∈ (sortedEntries ps).map entryOf := List.mem_of_mem_take he
    obtain ⟨a, ha, rfl⟩ := List.mem_map.mp hmem
    have hsnd : a.2 = ps a.1 := snd_of_mem_enumEntries (mem_sortedEntries.mp ha)
    exact ⟨a.1, by rw [entryOf, hsnd]⟩

end FailurePred
